import Mathlib

/-!
Shallow embedding of `SharedProcessors/AutopkgVendorer.py`.

The processor vendors a subtree of a GitHub repository at a pinned commit
into a local directory, rewriting file contents on the way (provenance
headers, optional plist→YAML conversion, identifier rewrite) and gated by a
LICENSE-presence check.

External collaborators (the GitHub REST session, the raw-file downloader,
`plistlib.loads`, `plistlib.dumps`, `plist_yaml_from_dict`, the wall clock)
are modelled as oracle fields of a `Session` record.  Filesystem writes are
made explicit: `process_file` returns the `(path, contents)` pair it would
write, and the tree walk accumulates the list of writes next to the list of
paths the Python code returns (`vendorer_paths`).  The unbounded recursion
of `vendor_path` is driven by explicit fuel; with enough fuel the model
agrees with the Python recursion.
-/

namespace AutopkgVendorer

/-- Python `s.startswith(p)` on strings. -/
def pyStartsWith (s p : String) : Bool := p.data.isPrefixOf s.data

/-- Python `s.endswith(p)` on strings. -/
def pyEndsWith (s p : String) : Bool := p.data.isSuffixOf s.data

/-- Python `s.lower()` (ASCII range, which is all the source compares). -/
def pyLower (s : String) : String := String.mk (s.data.map Char.toLower)

/-- Python truthiness of an optional string: `None` and `""` are falsy. -/
def pyTruthy : Option String → Bool
  | none => false
  | some s => !(s == "")

/-- `os.path.join` for the POSIX paths this processor builds. -/
def pathJoin (a b : String) : String :=
  if pyStartsWith b "/" then b
  else if a == "" then b
  else if pyEndsWith a "/" then a ++ b
  else a ++ "/" ++ b

/-- One step of Python `str.replace`: fueled scan over the character list,
replacing non-overlapping occurrences of `pat` left to right.  Fuel equal to
the length of the scanned list is always enough, since every step consumes
at least one character. -/
def replaceAllAux (pat rep : List Char) : Nat → List Char → List Char
  | _, [] => []
  | 0, s => s
  | Nat.succ n, c :: cs =>
    if pat ≠ [] ∧ pat.isPrefixOf (c :: cs) then
      rep ++ replaceAllAux pat rep n (List.drop (pat.length - 1) cs)
    else
      c :: replaceAllAux pat rep n cs

/-- Python `s.replace(pat, rep)` (for a non-empty pattern). -/
def pyReplace (s pat rep : String) : String :=
  String.mk (replaceAllAux pat.data rep.data s.data.length s.data)

/-- Characters that terminate a line for Python `str.splitlines` (besides
`\r\n` and a lone `\r`, which the splitter below handles positionally). -/
def isLineBreak (c : Char) : Bool :=
  c == '\n' || c == '\x0b' || c == '\x0c' || c == '\x1c' || c == '\x1d' ||
  c == '\x1e' || c == '\x85' || c == '\u2028' || c == '\u2029'

/-- Python `s.splitlines(keepends=True)` over a character list.  `acc` holds
the current (reversed) partial line. -/
def slAux : List Char → List Char → List (List Char)
  | [], acc => if acc.isEmpty then [] else [acc.reverse]
  | '\r' :: '\n' :: rest, acc => (acc.reverse ++ ['\r', '\n']) :: slAux rest []
  | c :: rest, acc =>
    if c == '\r' || isLineBreak c then (acc.reverse ++ [c]) :: slAux rest []
    else slAux rest (c :: acc)

/-- Python `content.splitlines(keepends=True)`. -/
def splitlinesKE (s : String) : List (List Char) := slAux s.data []

/-- Concatenating the kept-ends lines restores the scanned characters. -/
theorem slAux_join (cs acc : List Char) :
    (slAux cs acc).flatten = acc.reverse ++ cs := by
  induction cs, acc using slAux.induct <;> simp_all [slAux]

/-- Joining the first `n` kept-ends lines with the remaining ones restores
the original string. -/
theorem splitlinesKE_take_drop (s : String) (n : Nat) :
    String.mk ((splitlinesKE s).take n).flatten ++
      String.mk ((splitlinesKE s).drop n).flatten = s := by
  apply String.ext
  rw [String.data_append]
  show ((splitlinesKE s).take n).flatten ++ ((splitlinesKE s).drop n).flatten = s.data
  rw [← List.flatten_append, List.take_append_drop]
  simpa [splitlinesKE] using slAux_join s.data []

/-- One item of a GitHub contents listing, as the walk reads it:
`item.get("type")`, `item.get("path")`, `item.get("name")`. -/
structure RemoteItem where
  type : String
  path : String
  name : String
deriving Repr, DecidableEq

/-- Shape of a contents-API response body: a JSON list of entries, or a
single (scalar) entry object. -/
inductive ApiBody where
  | list (items : List RemoteItem)
  | single (item : RemoteItem)
deriving Repr, DecidableEq

/-- A parsed recipe plist, restricted to the string-valued fields the
processor inspects and rewrites (`Identifier`, `Name`, and arbitrary other
keys). Key order is kept, as Python dicts keep insertion order. -/
abbrev PDict := List (String × String)

/-- Python `key in dict`. -/
def hasKey (d : PDict) (k : String) : Bool := d.any fun p => decide (p.1 = k)

/-- Python `d[k]` as an option (first matching key). -/
def getVal (d : PDict) (k : String) : Option String :=
  match d with
  | [] => none
  | p :: rest => if p.1 = k then some p.2 else getVal rest k

/-- Python `d[k] = v`: overwrite an existing key in place, else append. -/
def dictSet (d : PDict) (k v : String) : PDict :=
  if hasKey d k then d.map (fun p => if p.1 = k then (k, v) else p)
  else d ++ [(k, v)]

/-- Errors raised by the processor (`ProcessorError` instances, distinguished
by the message they carry), plus fuel exhaustion of the embedded recursion. -/
inductive VErr where
  | apiError (status : Nat) (path : String)
  | downloadError (path : String)
  | parseError (path : String)
  | noIdentifier
  | noNewIdentifier
  | invalidCommentStyle (style : String)
  | licenseCheckError (status : Nat)
  | licenseMissing
  | fuelExhausted
deriving Repr, DecidableEq

/-- The external world: GitHub REST listings keyed by endpoint, raw file
contents keyed by URL, the plist parser/serializers, and the clock. -/
structure Session where
  listing : String → Nat × ApiBody
  raw : String → Option String
  parsePlist : String → Option PDict
  plistToYaml : PDict → String
  plistDumps : PDict → String
  now : String

/-- Endpoint string `f"/repos/{repo}/contents/{path}"` used by `vendor_path`. -/
def contentsEndpoint (repo path : String) : String :=
  "/repos/" ++ repo ++ "/contents/" ++ path

/-- Endpoint string `f"/repos/{repo}/contents"` used by the license check. -/
def rootContentsEndpoint (repo : String) : String :=
  "/repos/" ++ repo ++ "/contents"

/-- Raw-download URL `f"https://raw.githubusercontent.com/{repo}/{commit_sha}/{path}"`. -/
def rawUrl (repo commit_sha path : String) : String :=
  "https://raw.githubusercontent.com/" ++ repo ++ "/" ++ commit_sha ++ "/" ++ path

/-- `download_text_file`: fetch the raw file, or fail with a download error. -/
def download_text_file (s : Session) (repo path commit_sha : String) :
    Except VErr String :=
  match s.raw (rawUrl repo commit_sha path) with
  | some t => Except.ok t
  | none => Except.error (VErr.downloadError path)

/-- `check_root_for_license`: list the repository root; any non-200 status or
non-list body is an error; otherwise report whether some entry is a file
whose lowercased name is exactly `license`. -/
def check_root_for_license (s : Session) (repo : String) : Except VErr Bool :=
  match s.listing (rootContentsEndpoint repo) with
  | (status, body) =>
    match body with
    | ApiBody.list items =>
      if status ≠ 200 then Except.error (VErr.licenseCheckError status)
      else Except.ok (items.any fun item =>
        item.type == "file" && pyLower item.name == "license")
    | _ => Except.error (VErr.licenseCheckError status)

/-- `generate_comment_header` with the wall-clock timestamp passed in. -/
def generate_comment_header (repo path commit_sha style now : String) :
    Except VErr String :=
  if style == "xml" then
    Except.ok ("<!--\nDownloaded from https://github.com/" ++ repo ++ "/blob/" ++
      commit_sha ++ "/" ++ path ++ "\nCommit: " ++ commit_sha ++
      "\nDownloaded at: " ++ now ++ "\n-->\n\n")
  else if style == "yaml" then
    Except.ok ("# Downloaded from https://github.com/" ++ repo ++ "/blob/" ++
      commit_sha ++ "/" ++ path ++ "\n# Commit: " ++ commit_sha ++
      "\n# Downloaded at: " ++ now ++ "\n\n")
  else Except.error (VErr.invalidCommentStyle style)

/-- `insert_comment`: for the `xml` style and content of at least 3 lines the
header goes after the first 3 kept-ends lines; otherwise it is prepended. -/
def insert_comment (header content style : String) : String :=
  if style == "xml" then
    let lines := splitlinesKE content
    if lines.length ≥ 3 then
      String.mk (lines.take 3).flatten ++ header ++ String.mk (lines.drop 3).flatten
    else header ++ content
  else header ++ content

/-- `modify_identifier_and_name`: require an `Identifier` key and a truthy
replacement, then overwrite `Identifier` and, when a truthy new name was
given, `Name`. -/
def modify_identifier_and_name (plist_data : PDict)
    (new_identifier new_name : Option String) : Except VErr PDict :=
  if hasKey plist_data "Identifier" = false then Except.error VErr.noIdentifier
  else if pyTruthy new_identifier = false then Except.error VErr.noNewIdentifier
  else
    let d1 := dictSet plist_data "Identifier" (new_identifier.getD "")
    Except.ok (if pyTruthy new_name then dictSet d1 "Name" (new_name.getD "") else d1)

/-- `is_license_file`. -/
def is_license_file (item_name : String) : Bool := pyLower item_name == "license"

/-- `process_file`, with the filesystem write made explicit: on success the
result is the `(dest_path, full_contents)` pair the Python code writes.
Note that for a converted recipe the local `dest_path` is rebound via
`str.replace(".recipe", ".recipe.yaml")`, which substitutes every
occurrence, and the caller's variable is unaffected. -/
def process_file (s : Session) (repo item_path item_name commit_sha dest_path : String)
    (convert_to_yaml : Bool) (comment_style : Option String)
    (new_identifier new_name : Option String) : Except VErr (String × String) := do
  let file_contents ← download_text_file s repo item_path commit_sha
  if pyEndsWith item_name ".recipe" then
    let plist0 ← match s.parsePlist file_contents with
      | some d => Except.ok d
      | none => Except.error (VErr.parseError item_path)
    let plist_data ← modify_identifier_and_name plist0 new_identifier new_name
    if convert_to_yaml then
      let header ← generate_comment_header repo item_path commit_sha "yaml" s.now
      let full_contents := header ++ s.plistToYaml plist_data
      let dest := pyReplace dest_path ".recipe" ".recipe.yaml"
      pure (dest, full_contents)
    else
      let updated_plist_str := s.plistDumps plist_data
      let header ← generate_comment_header repo item_path commit_sha "xml" s.now
      pure (dest_path, insert_comment header updated_plist_str "xml")
  else
    let style := comment_style.getD "yaml"
    let header ← generate_comment_header repo item_path commit_sha style s.now
    pure (dest_path, insert_comment header file_contents style)

/-- A pending unit of walk work: fetch and process a listing, or iterate the
items of an already-fetched listing. -/
inductive WalkTask where
  | fetch (path rel_base : String)
  | items (l : List RemoteItem) (rel_base : String)

/-- The recursion of `vendor_path`, driven by fuel.  The result is the pair
`(vendorer_paths, writes)`: the list the Python function returns, next to
the `(path, contents)` writes performed on disk (including those performed
inside recursive calls, whose returned path list the source discards). -/
def walk (s : Session) (repo commit_sha dest_base : String) (convert_to_yaml : Bool)
    (comment_style new_identifier new_name : Option String) :
    Nat → WalkTask → Except VErr (List String × List (String × String))
  | 0, _ => Except.error VErr.fuelExhausted
  | Nat.succ fuel, WalkTask.fetch path rel_base =>
    match s.listing (contentsEndpoint repo path) with
    | (status, body) =>
      if status ≠ 200 then Except.error (VErr.apiError status path)
      else
        let items := match body with
          | ApiBody.list l => l
          | ApiBody.single item => [item]
        walk s repo commit_sha dest_base convert_to_yaml comment_style
          new_identifier new_name fuel (WalkTask.items items rel_base)
  | Nat.succ _, WalkTask.items [] _ => Except.ok ([], [])
  | Nat.succ fuel, WalkTask.items (item :: rest) rel_base =>
    let rel_path := pathJoin rel_base item.name
    let dest_path := pathJoin dest_base rel_path
    if item.type == "dir" then
      match walk s repo commit_sha dest_base convert_to_yaml comment_style
          new_identifier new_name fuel (WalkTask.fetch item.path rel_path) with
      | Except.error e => Except.error e
      | Except.ok (_, child_writes) =>
        match walk s repo commit_sha dest_base convert_to_yaml comment_style
            new_identifier new_name fuel (WalkTask.items rest rel_base) with
        | Except.error e => Except.error e
        | Except.ok (ps, ws) => Except.ok (ps, child_writes ++ ws)
    else if item.type == "file" then
      match process_file s repo item.path item.name commit_sha dest_path
          convert_to_yaml comment_style new_identifier new_name with
      | Except.error e => Except.error e
      | Except.ok w =>
        match walk s repo commit_sha dest_base convert_to_yaml comment_style
            new_identifier new_name fuel (WalkTask.items rest rel_base) with
        | Except.error e => Except.error e
        | Except.ok (ps, ws) => Except.ok (dest_path :: ps, w :: ws)
    else
      walk s repo commit_sha dest_base convert_to_yaml comment_style
        new_identifier new_name fuel (WalkTask.items rest rel_base)

/-- `vendor_path` as the Python entry point of the recursion. -/
def vendor_path (fuel : Nat) (s : Session) (repo path commit_sha dest_base rel_base : String)
    (convert_to_yaml : Bool) (comment_style new_identifier new_name : Option String) :
    Except VErr (List String × List (String × String)) :=
  walk s repo commit_sha dest_base convert_to_yaml comment_style new_identifier
    new_name fuel (WalkTask.fetch path rel_base)

/-- The processor's declared `input_variables`, as `(name, required)` pairs. -/
def input_variables : List (String × Bool) :=
  [("github_repo", true), ("folder_path", true), ("commit_sha", true),
   ("destination_path", true), ("github_token", false), ("comment_style", false),
   ("convert_to_yaml", false), ("new_identifier", true), ("new_name", false),
   ("fail_if_license_missing", false)]

/-- The environment configuration `main` reads, already resolved to values. -/
structure Config where
  github_repo : String
  folder_path : String
  commit_sha : String
  destination_path : String
  comment_style : Option String
  convert_to_yaml : Bool
  new_identifier : Option String
  new_name : Option String
  fail_if_license_missing : Bool

/-- `main`: run the license check, apply the `fail_if_license_missing`
policy, then walk the configured folder. -/
def main (fuel : Nat) (s : Session) (cfg : Config) :
    Except VErr (List String × List (String × String)) := do
  let license_found ← check_root_for_license s cfg.github_repo
  if cfg.fail_if_license_missing && !license_found then
    Except.error VErr.licenseMissing
  else
    vendor_path fuel s cfg.github_repo cfg.folder_path cfg.commit_sha
      cfg.destination_path "" cfg.convert_to_yaml cfg.comment_style
      cfg.new_identifier cfg.new_name

/-- Project the returned manifest (the list `vendor_path` returns) out of a
run result. -/
def runPaths (r : Except VErr (List String × List (String × String))) :
    Option (List String) :=
  match r with
  | Except.ok p => some p.1
  | Except.error _ => none

/-- Project the list of written destination paths out of a run result. -/
def runWritePaths (r : Except VErr (List String × List (String × String))) :
    Option (List String) :=
  match r with
  | Except.ok p => some (p.2.map Prod.fst)
  | Except.error _ => none

/-- A truthy optional string is `some` of its non-empty default projection. -/
theorem pyTruthy_some_getD (o : Option String) (h : pyTruthy o = true) :
    some (o.getD "") = o := by
  cases o with
  | none => simp [pyTruthy] at h
  | some s => rfl

/-- Overwriting the pairs keyed `k` leaves the lookup of `k` at `some v`,
provided the key occurs. -/
theorem getVal_map_set (d : PDict) (k v : String) (h : hasKey d k = true) :
    getVal (d.map fun p => if p.1 = k then (k, v) else p) k = some v := by
  induction d with
  | nil => simp [hasKey] at h
  | cons p rest ih =>
    by_cases hp : p.1 = k
    · simp [getVal, hp]
    · simp only [hasKey, List.any_cons, hp, decide_eq_true_eq, Bool.false_or] at h
      rw [hasKey] at ih
      simp [getVal, hp, ih (by simpa [hasKey] using h)]

/-- Overwriting the pairs keyed `k` does not change the lookup of another key. -/
theorem getVal_map_set_ne (d : PDict) (k v k' : String) (hne : k' ≠ k) :
    getVal (d.map fun p => if p.1 = k then (k, v) else p) k' = getVal d k' := by
  induction d with
  | nil => simp [getVal]
  | cons p rest ih =>
    by_cases hp : p.1 = k
    · have h1 : k ≠ k' := fun hkk => hne hkk.symm
      have h2 : p.1 ≠ k' := by rw [hp]; exact h1
      simp [getVal, hp, h1, h2, ih]
    · simp [getVal, hp, ih]

/-- Appending a pair with a fresh key does not change other lookups. -/
theorem getVal_append_ne (d : PDict) (k v k' : String) (hne : k' ≠ k) :
    getVal (d ++ [(k, v)]) k' = getVal d k' := by
  induction d with
  | nil =>
    have h1 : k ≠ k' := fun hkk => hne hkk.symm
    simp [getVal, h1]
  | cons p rest ih =>
    by_cases hp : p.1 = k'
    · simp [getVal, hp]
    · simp [getVal, hp, ih]

/-- Looking up the key just appended after a dict that lacks it. -/
theorem getVal_append_self (d : PDict) (k v : String) (h : hasKey d k = false) :
    getVal (d ++ [(k, v)]) k = some v := by
  induction d with
  | nil => simp [getVal]
  | cons p rest ih =>
    simp only [hasKey, List.any_cons, Bool.or_eq_false_iff, decide_eq_false_iff_not] at h
    simp only [List.cons_append, getVal, h.1, if_false]
    exact ih (by simp [hasKey, h.2])

/-- `d[k] = v` makes the lookup of `k` return `v`. -/
theorem getVal_dictSet_self (d : PDict) (k v : String) :
    getVal (dictSet d k v) k = some v := by
  by_cases h : hasKey d k
  · simp [dictSet, h, getVal_map_set d k v h]
  · simp only [dictSet, h, if_false, Bool.false_eq_true]
    exact getVal_append_self d k v (by simpa using h)

/-- `d[k] = v` does not change the lookup of another key. -/
theorem getVal_dictSet_ne (d : PDict) (k v k' : String) (hne : k' ≠ k) :
    getVal (dictSet d k v) k' = getVal d k' := by
  by_cases h : hasKey d k
  · simp [dictSet, h, getVal_map_set_ne d k v k' hne]
  · simp [dictSet, h, getVal_append_ne d k v k' hne]

/-- Overwriting pairs keyed `k` (with key kept at `k`) preserves `hasKey`. -/
theorem hasKey_map_set (d : PDict) (k v k' : String) :
    hasKey (d.map fun p => if p.1 = k then (k, v) else p) k' = hasKey d k' := by
  induction d with
  | nil => simp [hasKey]
  | cons p rest ih =>
    by_cases hp : p.1 = k
    · simp [hasKey, hp] at ih ⊢
      rw [ih]
    · simp [hasKey, hp] at ih ⊢
      rw [ih]

/-- `hasKey` after appending a single pair. -/
theorem hasKey_append_single (d : PDict) (k v k' : String) :
    hasKey (d ++ [(k, v)]) k' = (hasKey d k' || decide (k = k')) := by
  simp [hasKey, List.any_append]

/-- `hasKey` after `d[k] = v`: the key `k` is now present, others unchanged. -/
theorem hasKey_dictSet (d : PDict) (k v k' : String) :
    hasKey (dictSet d k v) k' = (hasKey d k' || (decide (k = k') && !hasKey d k)) := by
  by_cases h : hasKey d k
  · simp [dictSet, h, hasKey_map_set]
  · simp only [dictSet, h, if_false, Bool.false_eq_true, hasKey_append_single]
    cases hk : hasKey d k <;> simp_all

/-- Reduction of the `Except` monad bind on a success value. -/
theorem except_bind_ok {ε α β : Type} (x : α) (f : α → Except ε β) :
    (Except.ok (ε := ε) x >>= f) = f x := rfl

/-- Reduction of the `Except` monad bind on an error value. -/
theorem except_bind_error {ε α β : Type} (e : ε) (f : α → Except ε β) :
    ((Except.error e : Except ε α) >>= f) = Except.error e := rfl

/-- A remote tree with one nested directory holding one text file. -/
def sessNested : Session := {
  listing := fun e =>
    if e == contentsEndpoint "org/tools" "Recipes" then
      (200, ApiBody.list [⟨"dir", "Recipes/sub", "sub"⟩])
    else if e == contentsEndpoint "org/tools" "Recipes/sub" then
      (200, ApiBody.list [⟨"file", "Recipes/sub/bar.txt", "bar.txt"⟩])
    else (404, ApiBody.list []),
  raw := fun u =>
    if u == rawUrl "org/tools" "abc" "Recipes/sub/bar.txt" then some "hello\n" else none,
  parsePlist := fun _ => none,
  plistToYaml := fun _ => "",
  plistDumps := fun _ => "",
  now := "2025-01-01 00:00:00 UTC" }

/-- A remote tree whose vendored directory name itself contains `.recipe`:
the listing of `Recipes/sub.recipe` holds one recipe file. -/
def sessRecipeDir : Session := {
  listing := fun e =>
    if e == contentsEndpoint "org/tools" "Recipes/sub.recipe" then
      (200, ApiBody.list [⟨"file", "Recipes/sub.recipe/Foo.recipe", "Foo.recipe"⟩])
    else (404, ApiBody.list []),
  raw := fun u =>
    if u == rawUrl "org/tools" "abc" "Recipes/sub.recipe/Foo.recipe" then
      some "<plist/>" else none,
  parsePlist := fun c =>
    if c == "<plist/>" then some [("Identifier", "com.org.foo")] else none,
  plistToYaml := fun d =>
    if d == [("Identifier", "com.acme.foo")] then "Identifier: com.acme.foo\n" else "?",
  plistDumps := fun _ => "",
  now := "2025-01-01 00:00:00 UTC" }

/-- A world where the repository-root listing fails with HTTP 404 while the
vendored folder itself lists fine (as an empty directory). -/
def sessRoot404 : Session := {
  listing := fun e =>
    if e == rootContentsEndpoint "org/tools" then (404, ApiBody.list [])
    else if e == contentsEndpoint "org/tools" "Recipes" then (200, ApiBody.list [])
    else (500, ApiBody.list []),
  raw := fun _ => none,
  parsePlist := fun _ => none,
  plistToYaml := fun _ => "",
  plistDumps := fun _ => "",
  now := "2025-01-01 00:00:00 UTC" }

/-- A repository whose root holds only a directory named `LICENSE`, with an
empty vendored folder. -/
def sessLicenseDir : Session := {
  listing := fun e =>
    if e == rootContentsEndpoint "org/tools" then
      (200, ApiBody.list [⟨"dir", "LICENSE", "LICENSE"⟩])
    else if e == contentsEndpoint "org/tools" "Recipes" then (200, ApiBody.list [])
    else (500, ApiBody.list []),
  raw := fun _ => none,
  parsePlist := fun _ => none,
  plistToYaml := fun _ => "",
  plistDumps := fun _ => "",
  now := "2025-01-01 00:00:00 UTC" }

/-- A world holding one markup (`.xml`) file with four lines of content. -/
def sessXmlFile : Session := {
  listing := fun _ => (404, ApiBody.list []),
  raw := fun u =>
    if u == rawUrl "org/tools" "abc" "config.xml" then
      some "line1\nline2\nline3\nline4\n" else none,
  parsePlist := fun _ => none,
  plistToYaml := fun _ => "",
  plistDumps := fun _ => "",
  now := "2025-01-01 00:00:00 UTC" }

/-- A listing call on a single-file path: the API answers with a scalar
entry object rather than a list. -/
def sessSingleFile : Session := {
  listing := fun e =>
    if e == contentsEndpoint "org/tools" "Recipes/readme.txt" then
      (200, ApiBody.single ⟨"file", "Recipes/readme.txt", "readme.txt"⟩)
    else (404, ApiBody.list []),
  raw := fun u =>
    if u == rawUrl "org/tools" "abc" "Recipes/readme.txt" then some "hi\n" else none,
  parsePlist := fun _ => none,
  plistToYaml := fun _ => "",
  plistDumps := fun _ => "",
  now := "2025-01-01 00:00:00 UTC" }

/-- A world holding one recipe file whose parsed record has no `Identifier`. -/
def sessRecipeNoId : Session := {
  listing := fun _ => (404, ApiBody.list []),
  raw := fun u =>
    if u == rawUrl "org/tools" "abc" "Recipes/Foo.recipe" then some "<plist/>" else none,
  parsePlist := fun c => if c == "<plist/>" then some [("Name", "Foo")] else none,
  plistToYaml := fun _ => "",
  plistDumps := fun _ => "",
  now := "2025-01-01 00:00:00 UTC" }

/-- A configuration with no license policy (`fail_if_license_missing` unset). -/
def cfgNoPolicy : Config :=
  ⟨"org/tools", "Recipes", "abc", "/dest", none, true, some "id", none, false⟩

/-- C1: every file entry under the root, nested ones included, contributes
exactly one destination path to the returned manifest.  The code violates
this: `vendor_path` discards the path list returned by its recursive call on
a subdirectory, so a nested file is written to disk yet absent from the
returned manifest.  Here the walk writes `/dest/sub/bar.txt` but returns an
empty path list. -/
theorem c1_nested_file_missing_from_manifest :
    runPaths (vendor_path 10 sessNested "org/tools" "Recipes" "abc" "/dest" ""
      false none none none) = some []
    ∧ runWritePaths (vendor_path 10 sessNested "org/tools" "Recipes" "abc" "/dest" ""
      false none none none) = some ["/dest/sub/bar.txt"] :=
  ⟨rfl, rfl⟩

/-- C2: the destination of a converted `.recipe` file should only have its
trailing suffix rewritten, and that path should be the manifest entry.  The
code instead applies `str.replace(".recipe", ".recipe.yaml")` to the whole
written path — renaming a directory component `sub.recipe` as well — and
appends the pre-rename path to the manifest.  For a file `Foo.recipe` inside
directory `sub.recipe`, the manifest records `/dest/sub.recipe/Foo.recipe`
while the write goes to `/dest/sub.recipe.yaml/Foo.recipe.yaml`. -/
theorem c2_recipe_rename_rewrites_whole_path :
    runPaths (vendor_path 5 sessRecipeDir "org/tools" "Recipes/sub.recipe" "abc"
      "/dest" "sub.recipe" true none (some "com.acme.foo") none)
      = some ["/dest/sub.recipe/Foo.recipe"]
    ∧ runWritePaths (vendor_path 5 sessRecipeDir "org/tools" "Recipes/sub.recipe" "abc"
      "/dest" "sub.recipe" true none (some "com.acme.foo") none)
      = some ["/dest/sub.recipe.yaml/Foo.recipe.yaml"] :=
  ⟨rfl, rfl⟩

/-- C3 counterexample: with no license policy configured, the run still does
not proceed "regardless of what the repository-root listing returns" — a 404
root listing aborts `main` before the walk, although the walk by itself
would have succeeded (here returning an empty manifest). -/
theorem c3_counterexample :
    main 5 sessRoot404 cfgNoPolicy = Except.error (VErr.licenseCheckError 404)
    ∧ vendor_path 5 sessRoot404 "org/tools" "Recipes" "abc" "/dest" ""
      true none (some "id") none = Except.ok ([], []) :=
  ⟨rfl, rfl⟩

/-- C3 (amended): when no license policy is configured and the root listing
call itself succeeds (HTTP 200 with a list body), the license-presence
outcome never blocks vendoring — whatever the entries are, `main` proceeds
to, and returns the result of, the tree walk. -/
theorem c3_no_policy_gate (fuel : Nat) (s : Session) (cfg : Config)
    (items : List RemoteItem)
    (hpol : cfg.fail_if_license_missing = false)
    (hroot : s.listing (rootContentsEndpoint cfg.github_repo) = (200, ApiBody.list items)) :
    main fuel s cfg = vendor_path fuel s cfg.github_repo cfg.folder_path
      cfg.commit_sha cfg.destination_path "" cfg.convert_to_yaml cfg.comment_style
      cfg.new_identifier cfg.new_name := by
  simp [main, check_root_for_license, hroot, hpol, except_bind_ok]

/-- C3 witness: the amended no-policy gate at a concrete world (root listing
succeeds, holding only a `LICENSE` directory, so no license file exists). -/
theorem c3_no_policy_gate_witness :
    main 3 sessLicenseDir cfgNoPolicy = vendor_path 3 sessLicenseDir "org/tools"
      "Recipes" "abc" "/dest" "" true none (some "id") none :=
  c3_no_policy_gate 3 sessLicenseDir cfgNoPolicy [⟨"dir", "LICENSE", "LICENSE"⟩] rfl rfl

/-- Follows the spec's words, for comparison with the source: the header
style for a non-recipe file is the explicit override when configured, else
the XML-comment style when the path ends in a recognized markup extension,
else the line-comment style. -/
def specHeaderStyle (override : Option String) (path : String) : String :=
  match override with
  | some st => st
  | none =>
    if pyEndsWith path ".xml" || pyEndsWith path ".plist" || pyEndsWith path ".html" then
      "xml"
    else "yaml"

/-- C4 counterexample: the spec picks the XML-comment style for a markup
file such as `config.xml` when no override is configured, but the source
(`self.env.get("comment_style", "yaml")`) always defaults to the
line-comment style: the vendored `config.xml` starts with a `#` header, not
the XML comment the claim requires. -/
theorem c4_counterexample :
    specHeaderStyle none "config.xml" = "xml"
    ∧ process_file sessXmlFile "org/tools" "config.xml" "config.xml" "abc"
        "/dest/config.xml" false none (some "id") none
      = Except.ok ("/dest/config.xml",
          "# Downloaded from https://github.com/org/tools/blob/abc/config.xml\n# Commit: abc\n# Downloaded at: 2025-01-01 00:00:00 UTC\n\nline1\nline2\nline3\nline4\n")
    ∧ insert_comment
        "<!--\nDownloaded from https://github.com/org/tools/blob/abc/config.xml\nCommit: abc\nDownloaded at: 2025-01-01 00:00:00 UTC\n-->\n\n"
        "line1\nline2\nline3\nline4\n" "xml"
      ≠ "# Downloaded from https://github.com/org/tools/blob/abc/config.xml\n# Commit: abc\n# Downloaded at: 2025-01-01 00:00:00 UTC\n\nline1\nline2\nline3\nline4\n" := by
  refine ⟨rfl, rfl, ?_⟩
  decide

/-- C4 (amended): for a non-recipe file the header style is the configured
override when present, and otherwise always the line-comment style — the
file's extension plays no role.  Stated for the two styles the override can
usefully take: absent (line-comment header prepended) and `"xml"` (XML
header inserted by the 3-line rule). -/
theorem c4_style_default (s : Session) (repo item_path item_name commit dest : String)
    (cy : Bool) (cs ni nn : Option String) (raw : String)
    (h1 : pyEndsWith item_name ".recipe" = false)
    (h2 : s.raw (rawUrl repo commit item_path) = some raw) :
    (cs = none →
      process_file s repo item_path item_name commit dest cy cs ni nn
        = Except.ok (dest, "# Downloaded from https://github.com/" ++ repo ++
            "/blob/" ++ commit ++ "/" ++ item_path ++ "\n# Commit: " ++ commit ++
            "\n# Downloaded at: " ++ s.now ++ "\n\n" ++ raw))
    ∧ (cs = some "xml" →
      process_file s repo item_path item_name commit dest cy cs ni nn
        = Except.ok (dest, insert_comment
            ("<!--\nDownloaded from https://github.com/" ++ repo ++ "/blob/" ++
              commit ++ "/" ++ item_path ++ "\nCommit: " ++ commit ++
              "\nDownloaded at: " ++ s.now ++ "\n-->\n\n") raw "xml")) := by
  constructor
  · intro hcs
    subst hcs
    simp [process_file, download_text_file, h2, h1, generate_comment_header,
      insert_comment, except_bind_ok]
  · intro hcs
    subst hcs
    simp [process_file, download_text_file, h2, h1, generate_comment_header,
      except_bind_ok]

/-- C4 witness: the amended style rule at a concrete markup file. -/
theorem c4_style_default_witness :
    process_file sessXmlFile "org/tools" "config.xml" "config.xml" "abc"
      "/dest/config.xml" false none (some "id") none
      = Except.ok ("/dest/config.xml",
          "# Downloaded from https://github.com/org/tools/blob/abc/config.xml" ++
          "\n# Commit: " ++ "abc" ++ "\n# Downloaded at: " ++ sessXmlFile.now ++
          "\n\n" ++ "line1\nline2\nline3\nline4\n") :=
  (c4_style_default sessXmlFile "org/tools" "config.xml" "config.xml" "abc"
    "/dest/config.xml" false none (some "id") none "line1\nline2\nline3\nline4\n"
    (by decide) rfl).1 rfl

/-- C5: with an identifier rewrite in effect, transforming a recipe record
fails when the record has no `Identifier` key, fails when no truthy
replacement identifier is supplied, and otherwise sets `Identifier` to the
replacement and `Name` to the replacement name exactly when one is supplied;
a failing rewrite propagates out of `process_file`, so nothing is written
for that file. -/
theorem c5_identifier_rewrite (d : PDict) (ni nn : Option String) :
    (hasKey d "Identifier" = false →
      modify_identifier_and_name d ni nn = Except.error VErr.noIdentifier)
    ∧ (hasKey d "Identifier" = true → pyTruthy ni = false →
      modify_identifier_and_name d ni nn = Except.error VErr.noNewIdentifier)
    ∧ (∀ r : PDict, modify_identifier_and_name d ni nn = Except.ok r →
        getVal r "Identifier" = ni
        ∧ (pyTruthy nn = true → getVal r "Name" = nn)
        ∧ (pyTruthy nn = false → getVal r "Name" = getVal d "Name"))
    ∧ (∀ (s : Session) (repo ip iname commit dest : String) (cy : Bool)
        (cs : Option String) (raw : String) (e : VErr),
        pyEndsWith iname ".recipe" = true →
        s.raw (rawUrl repo commit ip) = some raw →
        s.parsePlist raw = some d →
        modify_identifier_and_name d ni nn = Except.error e →
        process_file s repo ip iname commit dest cy cs ni nn = Except.error e) := by
  refine ⟨?_, ?_, ?_, ?_⟩
  · intro h
    simp [modify_identifier_and_name, h]
  · intro h1 h2
    simp [modify_identifier_and_name, h1, h2]
  · intro r hr
    by_cases hk : hasKey d "Identifier"
    · by_cases hni : pyTruthy ni
      · simp only [modify_identifier_and_name, hk, hni, Bool.true_eq_false,
          if_false, Except.ok.injEq] at hr
        subst hr
        cases hnn : pyTruthy nn with
        | true =>
          refine ⟨?_, ?_, ?_⟩
          · rw [if_pos rfl]
            rw [getVal_dictSet_ne _ "Name" _ "Identifier" (by decide)]
            rw [getVal_dictSet_self]
            exact pyTruthy_some_getD ni hni
          · intro _
            rw [if_pos rfl, getVal_dictSet_self]
            exact pyTruthy_some_getD nn hnn
          · intro hc
            exact absurd hc (by decide)
        | false =>
          refine ⟨?_, ?_, ?_⟩
          · rw [if_neg (by decide), getVal_dictSet_self]
            exact pyTruthy_some_getD ni hni
          · intro hc
            exact absurd hc (by decide)
          · intro _
            rw [if_neg (by decide)]
            exact getVal_dictSet_ne d "Identifier" _ "Name" (by decide)
      · simp [modify_identifier_and_name, hk, hni] at hr
    · simp [modify_identifier_and_name, hk] at hr
  · intro s repo ip iname commit dest cy cs raw e hrec hraw hparse hmod
    simp [process_file, download_text_file, hraw, hrec, hparse, hmod,
      except_bind_ok, except_bind_error]

/-- C5 witness: a record without an `Identifier` key is rejected. -/
theorem c5_identifier_rewrite_witness :
    modify_identifier_and_name [("Name", "n")] (some "com.new") none
      = Except.error VErr.noIdentifier :=
  (c5_identifier_rewrite [("Name", "n")] (some "com.new") none).1 (by decide)

/-- C6: inserting an XML-style header into content of at least 3 lines puts
the header right after the first 3 kept-ends lines, and those lines followed
by the remainder concatenate back to the original content; with fewer than 3
lines, or in line-comment style, the header is prepended. -/
theorem c6_insert_comment_spec (header content : String) :
    (3 ≤ (splitlinesKE content).length →
      insert_comment header content "xml"
        = String.mk ((splitlinesKE content).take 3).flatten ++ header ++
            String.mk ((splitlinesKE content).drop 3).flatten
      ∧ String.mk ((splitlinesKE content).take 3).flatten ++
          String.mk ((splitlinesKE content).drop 3).flatten = content)
    ∧ ((splitlinesKE content).length < 3 →
      insert_comment header content "xml" = header ++ content)
    ∧ insert_comment header content "yaml" = header ++ content := by
  refine ⟨?_, ?_, ?_⟩
  · intro h3
    exact ⟨by simp [insert_comment, h3], splitlinesKE_take_drop content 3⟩
  · intro h3
    simp [insert_comment, Nat.not_le.mpr h3]
  · simp [insert_comment]

/-- C6 witness: four-line content gets the header after line 3. -/
theorem c6_insert_comment_witness :
    insert_comment "<!--C-->\n" "a\nb\nc\nd\n" "xml"
      = String.mk ((splitlinesKE "a\nb\nc\nd\n").take 3).flatten ++ "<!--C-->\n" ++
        String.mk ((splitlinesKE "a\nb\nc\nd\n").drop 3).flatten :=
  ((c6_insert_comment_spec "<!--C-->\n" "a\nb\nc\nd\n").1 (by decide)).1

/-- C7: a listing call with a non-200 status fails the walk with an API
error before any entry of that listing is processed; a list body is iterated
as returned, while a scalar body is normalized to the one-element sequence
before iterating — so listing a single-file path vendors exactly that one
file. -/
theorem c7_walk_listing :
    (∀ (fuel : Nat) (s : Session) (repo path commit dest_base rel_base : String)
       (cy : Bool) (cs ni nn : Option String) (status : Nat) (body : ApiBody),
       s.listing (contentsEndpoint repo path) = (status, body) → status ≠ 200 →
       vendor_path (fuel + 1) s repo path commit dest_base rel_base cy cs ni nn
         = Except.error (VErr.apiError status path))
    ∧ (∀ (fuel : Nat) (s : Session) (repo path commit dest_base rel_base : String)
       (cy : Bool) (cs ni nn : Option String) (item : RemoteItem),
       s.listing (contentsEndpoint repo path) = (200, ApiBody.single item) →
       vendor_path (fuel + 1) s repo path commit dest_base rel_base cy cs ni nn
         = walk s repo commit dest_base cy cs ni nn fuel (WalkTask.items [item] rel_base))
    ∧ (∀ (fuel : Nat) (s : Session) (repo path commit dest_base rel_base : String)
       (cy : Bool) (cs ni nn : Option String) (items : List RemoteItem),
       s.listing (contentsEndpoint repo path) = (200, ApiBody.list items) →
       vendor_path (fuel + 1) s repo path commit dest_base rel_base cy cs ni nn
         = walk s repo commit dest_base cy cs ni nn fuel (WalkTask.items items rel_base))
    ∧ runPaths (vendor_path 3 sessSingleFile "org/tools" "Recipes/readme.txt" "abc"
        "/dest" "" false none none none) = some ["/dest/readme.txt"] := by
  refine ⟨?_, ?_, ?_, rfl⟩
  · intro fuel s repo path commit db rb cy cs ni nn status body hl hs
    simp [vendor_path, walk, hl, hs]
  · intro fuel s repo path commit db rb cy cs ni nn item hl
    simp [vendor_path, walk, hl]
  · intro fuel s repo path commit db rb cy cs ni nn items hl
    simp [vendor_path, walk, hl]

/-- C7 witness: a concrete 500 listing aborts the walk. -/
theorem c7_walk_listing_witness :
    vendor_path 1 sessRoot404 "org/tools" "nope" "abc" "/dest" "" false none none none
      = Except.error (VErr.apiError 500 "nope") :=
  c7_walk_listing.1 0 sessRoot404 "org/tools" "nope" "abc" "/dest" "" false none
    none none 500 (ApiBody.list []) rfl (by decide)

/-- C8: the identifier rewrite is unconditional for `.recipe` files — the
replacement identifier is a required processor input, and processing a
recipe always runs the rewrite, so it fails whenever the replacement is
absent or empty, or the parsed record lacks an `Identifier` key. -/
theorem c8_rewrite_unconditional :
    (("new_identifier", true) ∈ input_variables)
    ∧ (∀ (s : Session) (repo ip iname commit dest : String) (cy : Bool)
        (cs ni nn : Option String) (raw : String) (d : PDict),
        pyEndsWith iname ".recipe" = true →
        s.raw (rawUrl repo commit ip) = some raw →
        s.parsePlist raw = some d →
        ((hasKey d "Identifier" = false →
            process_file s repo ip iname commit dest cy cs ni nn
              = Except.error VErr.noIdentifier)
          ∧ (hasKey d "Identifier" = true → pyTruthy ni = false →
            process_file s repo ip iname commit dest cy cs ni nn
              = Except.error VErr.noNewIdentifier))) := by
  refine ⟨by decide, ?_⟩
  intro s repo ip iname commit dest cy cs ni nn raw d hrec hraw hparse
  constructor
  · intro h
    simp [process_file, download_text_file, hraw, hrec, hparse,
      modify_identifier_and_name, h, except_bind_ok, except_bind_error]
  · intro h1 h2
    simp [process_file, download_text_file, hraw, hrec, hparse,
      modify_identifier_and_name, h1, h2, except_bind_ok, except_bind_error]

/-- C8 witness: a recipe whose record lacks `Identifier` fails even though
no rewrite was intended (`new_identifier` and `new_name` both absent). -/
theorem c8_rewrite_unconditional_witness :
    process_file sessRecipeNoId "org/tools" "Recipes/Foo.recipe" "Foo.recipe" "abc"
      "/dest/Foo.recipe" true none none none = Except.error VErr.noIdentifier :=
  (c8_rewrite_unconditional.2 sessRecipeNoId "org/tools" "Recipes/Foo.recipe"
    "Foo.recipe" "abc" "/dest/Foo.recipe" true none none none "<plist/>"
    [("Name", "Foo")] (by decide) rfl rfl).1 (by decide)

/-- C9: the license-presence check succeeds exactly for a root entry whose
type is `file` and whose lowercased name is exactly `license`; names such as
`LICENSE.md` or `LICENSE.txt` do not qualify, and neither does a directory
named `LICENSE`. -/
theorem c9_license_check_exact :
    (∀ (s : Session) (repo : String) (items : List RemoteItem),
      s.listing (rootContentsEndpoint repo) = (200, ApiBody.list items) →
      (check_root_for_license s repo = Except.ok true ↔
        ∃ item ∈ items, item.type = "file" ∧ is_license_file item.name = true))
    ∧ is_license_file "LICENSE.md" = false
    ∧ is_license_file "LICENSE.txt" = false
    ∧ is_license_file "LICENSE" = true
    ∧ (∀ (s : Session) (repo : String),
      s.listing (rootContentsEndpoint repo)
        = (200, ApiBody.list [⟨"dir", "LICENSE", "LICENSE"⟩]) →
      check_root_for_license s repo = Except.ok false) := by
  refine ⟨?_, by decide, by decide, by decide, ?_⟩
  · intro s repo items hroot
    simp [check_root_for_license, hroot, List.any_eq_true, Bool.and_eq_true,
      beq_iff_eq, is_license_file]
  · intro s repo hroot
    simp [check_root_for_license, hroot, is_license_file]

/-- C9 witness: a root whose only entry is a directory named `LICENSE` does
not satisfy the check. -/
theorem c9_license_check_witness :
    check_root_for_license sessLicenseDir "org/tools" = Except.ok false :=
  c9_license_check_exact.2.2.2.2 sessLicenseDir "org/tools" rfl

/-- C10: the identifier rewrite is frame-preserving — on success, every key
other than `Identifier` and `Name` keeps its value, `Name` keeps its value
when no replacement name is supplied, and no key is added or removed except
possibly `Name` (which is present afterwards iff it was present before or a
replacement name was supplied). -/
theorem c10_rewrite_frame (d : PDict) (ni nn : Option String) (r : PDict)
    (h : modify_identifier_and_name d ni nn = Except.ok r) :
    (∀ k : String, k ≠ "Identifier" → k ≠ "Name" → getVal r k = getVal d k)
    ∧ (pyTruthy nn = false → getVal r "Name" = getVal d "Name")
    ∧ (∀ k : String, k ≠ "Name" → hasKey r k = hasKey d k)
    ∧ hasKey r "Name" = (hasKey d "Name" || pyTruthy nn) := by
  by_cases hk : hasKey d "Identifier"
  · by_cases hni : pyTruthy ni
    · simp only [modify_identifier_and_name, hk, hni, Bool.true_eq_false,
        if_false, Except.ok.injEq] at h
      subst h
      have hkeys : ∀ k : String,
          hasKey (dictSet d "Identifier" (ni.getD "")) k = hasKey d k := by
        intro k
        rw [hasKey_dictSet]
        rw [hk]
        simp
      cases hnn : pyTruthy nn with
      | true =>
        refine ⟨?_, ?_, ?_, ?_⟩
        · intro k hki hkn
          rw [if_pos rfl]
          rw [getVal_dictSet_ne _ "Name" _ k hkn]
          exact getVal_dictSet_ne d "Identifier" _ k hki
        · intro hc
          exact absurd hc (by decide)
        · intro k hkn
          rw [if_pos rfl, hasKey_dictSet]
          have hnk : decide ("Name" = k) = false := by
            simp only [decide_eq_false_iff_not]
            exact fun hx => hkn hx.symm
          rw [hnk]
          simp [hkeys k]
        · rw [if_pos rfl, hasKey_dictSet]
          rw [hkeys "Name"]
          cases hx : hasKey d "Name" <;> simp
      | false =>
        refine ⟨?_, ?_, ?_, ?_⟩
        · intro k hki _
          rw [if_neg (by decide)]
          exact getVal_dictSet_ne d "Identifier" _ k hki
        · intro _
          rw [if_neg (by decide)]
          exact getVal_dictSet_ne d "Identifier" _ "Name" (by decide)
        · intro k _
          rw [if_neg (by decide)]
          exact hkeys k
        · rw [if_neg (by decide), hkeys "Name"]
          simp
    · simp [modify_identifier_and_name, hk, hni] at h
  · simp [modify_identifier_and_name, hk] at h

/-- C10 witness: rewriting a two-key record leaves the other key intact. -/
theorem c10_rewrite_frame_witness :
    getVal [("Identifier", "com.new"), ("Input", "x")] "Input"
      = getVal [("Identifier", "com.old"), ("Input", "x")] "Input" :=
  (c10_rewrite_frame [("Identifier", "com.old"), ("Input", "x")] (some "com.new")
    none [("Identifier", "com.new"), ("Input", "x")] rfl).1 "Input"
    (by decide) (by decide)

end AutopkgVendorer
